import Mathlib

/-!
Verification of the grnode DOT-document builder.

Shallow embedding of the document-building core of `grnode.go` (the
`renderGraph` function up to the point where the DOT text is complete,
i.e. everything written into the `in` buffer), together with theorems
about the claims of the specification.

Buffers are modelled by pure string concatenation in the order of the
`fmt.Fprintf` calls; the fallible edge loop is modelled with `Except`.
-/

/-- Go struct `NodeData` (src/grnode.go): one graph node record. -/
structure NodeData where
  Name : String
  Path : String
  Synopsis : String
  URL : String
deriving DecidableEq, Repr

/-- Go struct `GraphMetadata` (src/grnode.go): graph-level attributes. -/
structure GraphMetadata where
  Name : String
  BackgroundColor : String
  FontName : String
deriving DecidableEq, Repr

/-- Go struct `EdgeData` (src/grnode.go): one directed edge record. -/
structure EdgeData where
  From : String
  To : String
  Relation : String
  Color : String
  Style : String
deriving DecidableEq, Repr

/-- Embedding of `strings.Replace(s, QUOTE, BACKSLASH-QUOTE, -1)` as called in
`renderGraph`: the pattern is the single character `"`, so the replacement is
exactly the per-character map that expands `"` to the two characters
backslash, quote and leaves every other character alone. -/
def escapeQuotes (s : String) : String :=
  String.mk (s.data.flatMap (fun c => if c = '"' then ['\\', '"'] else [c]))

/-- The node declaration written by
`fmt.Fprintf(&in, "  n%d [label=%q, URL=%q, tooltip=%q];", i, ...)`
for node number `i` (with the quote-escaping applied to `Synopsis` only). -/
def nodeLine (i : Nat) (node : NodeData) : String :=
  "  n" ++ toString i ++ " [label=\"" ++ node.Name ++ "\", URL=\"" ++ node.URL
    ++ "\", tooltip=\"" ++ escapeQuotes node.Synopsis ++ "\"];\n"

/-- The node declarations, one per node in input order (`for i, node := range nodes`). -/
def nodeLines (nodes : List NodeData) : List String :=
  nodes.enum.map (fun p => nodeLine p.1 p.2)

/-- The chunks written to the buffer before the node declarations:
graph header, the two optional graph attributes, and the two fixed
default style declarations. -/
def headerChunks (graphMeta : GraphMetadata) : List String :=
  ["digraph " ++ graphMeta.Name ++ " \x7b \n"]
    ++ (if graphMeta.BackgroundColor ≠ "" then
          ["  bgcolor=\"" ++ graphMeta.BackgroundColor ++ "\";\n"] else [])
    ++ (if graphMeta.FontName ≠ "" then
          ["  fontname=\"" ++ graphMeta.FontName ++ "\";\n"] else [])
    ++ ["  node [shape=box, style=filled, fillcolor=\"#e0e0e0\", fontname=\"Arial\"];\n",
        "  edge [color=\"#555555\", fontname=\"Arial\"];\n"]

/-- The loop `for i, node := range nodes { nodeIndexMap[node.Name] = i }`:
each assignment overwrites any earlier binding of the same name. -/
def insertAll (m : String → Option Nat) : List (Nat × NodeData) → (String → Option Nat)
  | [] => m
  | p :: rest => insertAll (fun k => if k = p.2.Name then some p.1 else m k) rest

/-- The Go map `nodeIndexMap` after the insertion loop, as a lookup function
(`nodeIndexMap[name]` with its found-flag is `nodeIndexMap nodes name`). -/
def nodeIndexMap (nodes : List NodeData) : String → Option Nat :=
  insertAll (fun _ => none) nodes.enum

/-- The message of `fmt.Errorf("error: edge refers to unknown node(s) from: %s, to: %s", ...)`. -/
def edgeErrMsg (edge : EdgeData) : String :=
  "error: edge refers to unknown node(s) from: " ++ edge.From ++ ", to: " ++ edge.To

/-- The text written for one edge whose endpoints resolved to `fromIndex` and
`toIndex`: the `hasAttributes` conditional chain of `renderGraph`, verbatim —
including the fact that the `Style` branch does not set `hasAttributes` when it
opens the attribute list. -/
def edgeStmt (fromIndex toIndex : Nat) (edge : EdgeData) : String :=
  let s := "  n" ++ toString fromIndex ++ " -> n" ++ toString toIndex
  let acc : String × Bool :=
    if edge.Relation ≠ "" then (s ++ " [label=\"" ++ edge.Relation ++ "\"", true)
    else (s, false)
  let acc : String × Bool :=
    if edge.Color ≠ "" then
      if acc.2 = false then (acc.1 ++ " [color=\"" ++ edge.Color ++ "\"", true)
      else (acc.1 ++ ", color=\"" ++ edge.Color ++ "\"", acc.2)
    else acc
  let acc : String × Bool :=
    if edge.Style ≠ "" then
      if acc.2 = false then (acc.1 ++ " [style=\"" ++ edge.Style ++ "\"", acc.2)
      else (acc.1 ++ ", style=\"" ++ edge.Style ++ "\"", acc.2)
    else acc
  let s := if acc.2 then acc.1 ++ "]" else acc.1
  s ++ ";\n"

/-- The edge loop of `renderGraph`: look both endpoints up in the map, abort
with the reference error if either is missing, otherwise append the edge
statement and continue. Returns the concatenation of all edge statements. -/
def renderEdges (m : String → Option Nat) : List EdgeData → Except String String
  | [] => Except.ok ""
  | edge :: rest =>
    match m edge.From, m edge.To with
    | some fromIndex, some toIndex =>
        (renderEdges m rest).map (fun s => edgeStmt fromIndex toIndex edge ++ s)
    | some _, none => Except.error (edgeErrMsg edge)
    | none, _ => Except.error (edgeErrMsg edge)

/-- The complete DOT document built by `renderGraph` (the contents of the `in`
buffer when `in.WriteString` of the closing brace has run), or the error
returned from inside the edge loop. On error the function returns `nil`
output, which `Except.error` models: no document is produced. -/
def renderDocument (graphMeta : GraphMetadata) (nodes : List NodeData)
    (edges : List EdgeData) : Except String String :=
  (renderEdges (nodeIndexMap nodes) edges).map
    (fun es => String.join (headerChunks graphMeta) ++ String.join (nodeLines nodes)
      ++ es ++ "\x7d")

/-- Spec-side description of an amended step 5 of section 4.2: the positional
identifier of the LAST node in input order carrying the given name (the first
match in the reversed indexed node sequence). -/
def lastIndexOfName (nodes : List NodeData) (name : String) : Option Nat :=
  (nodes.enum.reverse.find? (fun p => p.2.Name = name)).map Prod.fst

/-- Spec-side description of step 5 of section 4.2 as written: the positional
identifier of the FIRST node in input order carrying the given name. -/
def firstIndexOfName (nodes : List NodeData) (name : String) : Option Nat :=
  (nodes.enum.find? (fun p => p.2.Name = name)).map Prod.fst

example : escapeQuotes "a\"b" = "a\\\"b" := by decide

example :
    nodeIndexMap [⟨"a", "", "", ""⟩, ⟨"a", "", "", ""⟩] "a" = some 1 := by decide

example :
    edgeStmt 0 1 ⟨"a", "b", "", "", "dashed"⟩ = "  n0 -> n1 [style=\"dashed\";\n" := by
  decide

example :
    edgeStmt 0 1 ⟨"a", "b", "rel", "red", "dashed"⟩
      = "  n0 -> n1 [label=\"rel\", color=\"red\", style=\"dashed\"];\n" := by decide

example :
    renderDocument ⟨"G", "", ""⟩ [⟨"main", "", "", ""⟩] [⟨"main", "ghost", "", "", ""⟩]
      = Except.error "error: edge refers to unknown node(s) from: main, to: ghost" := rfl

/-! Helper lemmas shared by the claim theorems. -/

/-- String concatenation is associative (used to regroup document fragments). -/
theorem strAppend_assoc (a b c : String) : a ++ b ++ c = a ++ (b ++ c) := by
  apply String.ext
  simp [String.data_append]

/-- The empty string is a right identity for concatenation. -/
theorem strAppend_empty (a : String) : a ++ "" = a := by
  apply String.ext
  simp [String.data_append]

/-- Inserting the indexed nodes of `l ++ [p]` is inserting those of `l` and
then overwriting the binding of `p`'s name. -/
theorem insertAll_append (m : String → Option Nat) (l : List (Nat × NodeData))
    (p : Nat × NodeData) (k : String) :
    insertAll m (l ++ [p]) k = if k = p.2.Name then some p.1 else insertAll m l k := by
  induction l generalizing m with
  | nil => rfl
  | cons q rest ih => simp [insertAll, ih]

/-- If some edge of the list has an unresolvable endpoint, the edge loop
returns the reference error of the first such edge. -/
theorem renderEdges_error_of_bad (m : String → Option Nat) (edges : List EdgeData)
    (h : ∃ e ∈ edges, m e.From = none ∨ m e.To = none) :
    ∃ e ∈ edges, (m e.From = none ∨ m e.To = none) ∧
      renderEdges m edges = Except.error (edgeErrMsg e) := by
  induction edges with
  | nil => simp at h
  | cons edge rest ih =>
    cases hf : m edge.From with
    | none =>
        exact ⟨edge, List.mem_cons_self _ _, Or.inl hf, by simp [renderEdges, hf]⟩
    | some f =>
      cases ht : m edge.To with
      | none =>
          exact ⟨edge, List.mem_cons_self _ _, Or.inr ht, by simp [renderEdges, hf, ht]⟩
      | some t =>
        have hrest : ∃ e ∈ rest, m e.From = none ∨ m e.To = none := by
          rcases h with ⟨e, he, hbad⟩
          rcases List.mem_cons.mp he with rfl | hmem
          · rcases hbad with hb | hb
            · rw [hf] at hb
              cases hb
            · rw [ht] at hb
              cases hb
          · exact ⟨e, hmem, hbad⟩
        obtain ⟨e, he, hbad, herr⟩ := ih hrest
        refine ⟨e, List.mem_cons_of_mem _ he, hbad, ?_⟩
        simp [renderEdges, hf, ht, herr, Except.map]

/-- A name lookup in the built map fails exactly when no node of the sequence
carries that name. -/
theorem nodeIndexMap_eq_none_iff (nodes : List NodeData) (name : String) :
    nodeIndexMap nodes name = none ↔ ∀ node ∈ nodes, node.Name ≠ name := by
  induction nodes using List.reverseRecOn with
  | nil => simp [nodeIndexMap, insertAll]
  | append_singleton l x ih =>
    rw [nodeIndexMap,
      show (l ++ [x]).enum = l.enum ++ [(l.length, x)] by simp [List.enum_append],
      insertAll_append]
    by_cases hx : name = x.Name
    · simp [hx]
      exact ⟨x, Or.inr rfl, rfl⟩
    · rw [if_neg hx]
      simp [nodeIndexMap] at ih
      simp only [List.mem_append, List.mem_singleton]
      rw [ih]
      constructor
      · intro h node hmem
        rcases hmem with hm | rfl
        · exact h node hm
        · exact fun hn => hx hn.symm
      · intro h node hm
        exact h node (Or.inl hm)

/-! Claim theorems. -/

/-- C1 (counterexample): with two nodes both named `a` and the self edge
`a -> a`, the rendered edge statement is `n1 -> n1` — the positional
identifier of the LATEST node named `a` — and the name resolves to index 1
while the first occurrence of the name is at index 0, so edge resolution does
not reflect the first occurrence of a duplicated name. -/
theorem duplicate_name_not_first_occurrence_cex :
    renderEdges (nodeIndexMap [⟨"a", "", "", ""⟩, ⟨"a", "", "", ""⟩])
        [⟨"a", "a", "", "", ""⟩] = Except.ok "  n1 -> n1;\n" ∧
    nodeIndexMap [⟨"a", "", "", ""⟩, ⟨"a", "", "", ""⟩] "a" = some 1 ∧
    firstIndexOfName [⟨"a", "", "", ""⟩, ⟨"a", "", "", ""⟩] "a" = some 0 ∧
    ("  n1 -> n1;\n" : String) ≠ "  n0 -> n0;\n" :=
  ⟨rfl, by decide, by decide, by decide⟩

/-- C1 (amended): the name-to-positional-identifier mapping used for edge
resolution reflects the LAST occurrence of a duplicated name: looking a name
up in the map built by the insertion loop yields the positional identifier of
the latest node in input order with that name. -/
theorem edge_resolution_uses_last_occurrence (nodes : List NodeData) (name : String) :
    nodeIndexMap nodes name = lastIndexOfName nodes name := by
  induction nodes using List.reverseRecOn with
  | nil => rfl
  | append_singleton l x ih =>
    rw [nodeIndexMap, lastIndexOfName]
    rw [show (l ++ [x]).enum = l.enum ++ [(l.length, x)] by simp [List.enum_append]]
    rw [insertAll_append]
    by_cases hx : x.Name = name
    · simp [hx, List.find?]
    · have hx' : ¬ (name = x.Name) := fun h => hx h.symm
      simp only [List.reverse_append, List.reverse_singleton, List.singleton_append,
        List.find?]
      rw [if_neg hx']
      simp only [show (decide (x.Name = name)) = false from by simp [hx]]
      exact ih

/-- C2 (code evaluated at the failing input): an edge carrying only a style —
relation and color empty — is emitted with an opened attribute list that is
never closed: the statement ends `[style="dashed";` with no `]`, because the
style branch of the conditional chain does not record that it opened the
attribute list. -/
theorem style_only_edge_unclosed_attribute_list :
    edgeStmt 0 1 ⟨"a", "b", "", "", "dashed"⟩ = "  n0 -> n1 [style=\"dashed\";\n" ∧
    ∀ c ∈ ("  n0 -> n1 [style=\"dashed\";\n" : String).data, c ≠ ']' :=
  ⟨by decide, by decide⟩

/-- C6: an edge with empty relation, color and style is emitted as the bare
directed-edge statement with no attribute list. -/
theorem bare_edge_no_attribute_list (fromIndex toIndex : Nat) (edge : EdgeData)
    (h1 : edge.Relation = "") (h2 : edge.Color = "") (h3 : edge.Style = "") :
    edgeStmt fromIndex toIndex edge
      = "  n" ++ toString fromIndex ++ " -> n" ++ toString toIndex ++ ";\n" := by
  simp [edgeStmt, h1, h2, h3]

/-- Witness for C6 at a concrete edge. -/
theorem bare_edge_no_attribute_list_witness :
    (EdgeData.mk "a" "b" "" "" "").Relation = "" ∧
    (EdgeData.mk "a" "b" "" "" "").Color = "" ∧
    (EdgeData.mk "a" "b" "" "" "").Style = "" ∧
    edgeStmt 0 1 (EdgeData.mk "a" "b" "" "" "")
      = "  n" ++ toString 0 ++ " -> n" ++ toString 1 ++ ";\n" :=
  ⟨rfl, rfl, rfl, bare_edge_no_attribute_list 0 1 (EdgeData.mk "a" "b" "" "" "") rfl rfl rfl⟩

/-- C8: the document-building step is deterministic — it is a pure function of
the input model, so any two invocations on equal metadata, node and edge
inputs produce the same document text and the same error outcome. -/
theorem render_document_deterministic (gm gm' : GraphMetadata)
    (ns ns' : List NodeData) (es es' : List EdgeData)
    (h1 : gm = gm') (h2 : ns = ns') (h3 : es = es') :
    renderDocument gm ns es = renderDocument gm' ns' es' := by
  rw [h1, h2, h3]

/-- Witness for C8 at a concrete model. -/
theorem render_document_deterministic_witness :
    renderDocument ⟨"G", "bg", "f"⟩ [⟨"main", "", "", ""⟩] []
      = renderDocument ⟨"G", "bg", "f"⟩ [⟨"main", "", "", ""⟩] [] :=
  render_document_deterministic ⟨"G", "bg", "f"⟩ ⟨"G", "bg", "f"⟩
    [⟨"main", "", "", ""⟩] [⟨"main", "", "", ""⟩] [] [] rfl rfl rfl

/-- C9: node name and url are embedded verbatim — a node whose name and url
contain a double quote is declared with those quotes unescaped (while the
synopsis quote IS escaped), and the declaration differs from the one that
escaping name and url would have produced. -/
theorem name_url_embedded_verbatim :
    nodeLine 0 ⟨"a\"b", "p", "s\"t", "u\"v"⟩
        = "  n0 [label=\"a\"b\", URL=\"u\"v\", tooltip=\"s\\\"t\"];\n" ∧
    nodeLine 0 ⟨"a\"b", "p", "s\"t", "u\"v"⟩
        ≠ "  n0 [label=\"a\\\"b\", URL=\"u\\\"v\", tooltip=\"s\\\"t\"];\n" :=
  ⟨by decide, by decide⟩

/-- C3: whenever some edge has an endpoint naming no node of the sequence,
the render operation produces no document at all — it returns the reference
error of a failing edge, whose message contains the unresolved node name. -/
theorem render_fails_on_unknown_node (graphMeta : GraphMetadata)
    (nodes : List NodeData) (edges : List EdgeData)
    (h : ∃ e ∈ edges, (∀ node ∈ nodes, node.Name ≠ e.From) ∨
      (∀ node ∈ nodes, node.Name ≠ e.To)) :
    (∀ doc, renderDocument graphMeta nodes edges ≠ Except.ok doc) ∧
    ∃ e ∈ edges,
      ((∀ node ∈ nodes, node.Name ≠ e.From) ∨ (∀ node ∈ nodes, node.Name ≠ e.To)) ∧
      renderDocument graphMeta nodes edges = Except.error (edgeErrMsg e) ∧
      ((∀ node ∈ nodes, node.Name ≠ e.From) → ∃ a b, edgeErrMsg e = a ++ e.From ++ b) ∧
      ((∀ node ∈ nodes, node.Name ≠ e.To) → ∃ a b, edgeErrMsg e = a ++ e.To ++ b) := by
  have h' : ∃ e ∈ edges,
      nodeIndexMap nodes e.From = none ∨ nodeIndexMap nodes e.To = none := by
    obtain ⟨e, he, hbad⟩ := h
    rcases hbad with hb | hb
    · exact ⟨e, he, Or.inl ((nodeIndexMap_eq_none_iff nodes e.From).mpr hb)⟩
    · exact ⟨e, he, Or.inr ((nodeIndexMap_eq_none_iff nodes e.To).mpr hb)⟩
  obtain ⟨e, he, hbad, herr⟩ := renderEdges_error_of_bad (nodeIndexMap nodes) edges h'
  have hdoc : renderDocument graphMeta nodes edges = Except.error (edgeErrMsg e) := by
    rw [renderDocument, herr]
    rfl
  have hFrom : ∃ a b, edgeErrMsg e = a ++ e.From ++ b := by
    refine ⟨"error: edge refers to unknown node(s) from: ", ", to: " ++ e.To, ?_⟩
    rw [edgeErrMsg, strAppend_assoc]
  have hTo : ∃ a b, edgeErrMsg e = a ++ e.To ++ b :=
    ⟨"error: edge refers to unknown node(s) from: " ++ e.From ++ ", to: ", "",
      (strAppend_empty _).symm⟩
  have hnotok : ∀ doc, renderDocument graphMeta nodes edges ≠ Except.ok doc := by
    intro doc hok
    rw [hdoc] at hok
    cases hok
  have hbad' : (∀ node ∈ nodes, node.Name ≠ e.From) ∨
      (∀ node ∈ nodes, node.Name ≠ e.To) := by
    rcases hbad with hb | hb
    · exact Or.inl ((nodeIndexMap_eq_none_iff nodes e.From).mp hb)
    · exact Or.inr ((nodeIndexMap_eq_none_iff nodes e.To).mp hb)
  exact ⟨hnotok, e, he, hbad', hdoc, fun _ => hFrom, fun _ => hTo⟩

/-- Witness for C3: one node `main`, one edge to the absent node `ghost`. -/
theorem render_fails_on_unknown_node_witness :
    (∃ e ∈ [EdgeData.mk "main" "ghost" "" "" ""],
      (∀ node ∈ [NodeData.mk "main" "" "" ""], node.Name ≠ e.From) ∨
      (∀ node ∈ [NodeData.mk "main" "" "" ""], node.Name ≠ e.To)) ∧
    ((∀ doc, renderDocument ⟨"G", "", ""⟩ [NodeData.mk "main" "" "" ""]
        [EdgeData.mk "main" "ghost" "" "" ""] ≠ Except.ok doc) ∧
     ∃ e ∈ [EdgeData.mk "main" "ghost" "" "" ""],
      ((∀ node ∈ [NodeData.mk "main" "" "" ""], node.Name ≠ e.From) ∨
       (∀ node ∈ [NodeData.mk "main" "" "" ""], node.Name ≠ e.To)) ∧
      renderDocument ⟨"G", "", ""⟩ [NodeData.mk "main" "" "" ""]
          [EdgeData.mk "main" "ghost" "" "" ""] = Except.error (edgeErrMsg e) ∧
      ((∀ node ∈ [NodeData.mk "main" "" "" ""], node.Name ≠ e.From) →
        ∃ a b, edgeErrMsg e = a ++ e.From ++ b) ∧
      ((∀ node ∈ [NodeData.mk "main" "" "" ""], node.Name ≠ e.To) →
        ∃ a b, edgeErrMsg e = a ++ e.To ++ b)) :=
  ⟨⟨EdgeData.mk "main" "ghost" "" "" "", by decide, Or.inr (by decide)⟩,
    render_fails_on_unknown_node ⟨"G", "", ""⟩ [NodeData.mk "main" "" "" ""]
      [EdgeData.mk "main" "ghost" "" "" ""]
      ⟨EdgeData.mk "main" "ghost" "" "" "", by decide, Or.inr (by decide)⟩⟩

/-- C10: when the first edge of the list fails referential validation — no
matter which endpoint is the unresolved one — the render operation returns the
reference error whose message embeds both the `from` name and the `to` name. -/
theorem reference_error_names_both_endpoints (graphMeta : GraphMetadata)
    (nodes : List NodeData) (edge : EdgeData) (rest : List EdgeData)
    (h : nodeIndexMap nodes edge.From = none ∨ nodeIndexMap nodes edge.To = none) :
    ∃ a b, renderDocument graphMeta nodes (edge :: rest)
        = Except.error (a ++ edge.From ++ b ++ edge.To) := by
  refine ⟨"error: edge refers to unknown node(s) from: ", ", to: ", ?_⟩
  have herr : renderEdges (nodeIndexMap nodes) (edge :: rest)
      = Except.error (edgeErrMsg edge) := by
    rcases h with hf | ht
    · simp [renderEdges, hf]
    · cases hf : nodeIndexMap nodes edge.From with
      | none => simp [renderEdges, hf]
      | some f => simp [renderEdges, hf, ht]
  rw [renderDocument, herr]
  rfl

/-- Witness for C10: the edge `ghost -> zz` where only `zz`… in fact neither
name resolves, exercised through the `from` disjunct. -/
theorem reference_error_names_both_endpoints_witness :
    (nodeIndexMap [NodeData.mk "main" "" "" ""] "ghost" = none ∨
     nodeIndexMap [NodeData.mk "main" "" "" ""] "main" = none) ∧
    ∃ a b, renderDocument ⟨"G", "", ""⟩ [NodeData.mk "main" "" "" ""]
        [EdgeData.mk "ghost" "main" "" "" ""]
        = Except.error (a ++ "ghost" ++ b ++ "main") :=
  ⟨Or.inl (by decide),
    reference_error_names_both_endpoints ⟨"G", "", ""⟩ [NodeData.mk "main" "" "" ""]
      (EdgeData.mk "ghost" "main" "" "" "") [] (Or.inl (by decide))⟩

/-- C4: the emitted node declarations are in bijection with the input
sequence: there are exactly as many as there are nodes, and the declaration in
position `i` is that of input node `i`, carrying the zero-based positional
identifier `n<i>` — so identifiers run `n0 .. n(k-1)` in input order with no
gaps and none reused across duplicate names. -/
theorem node_identifiers_positional (nodes : List NodeData) (i : Nat) :
    (nodeLines nodes).length = nodes.length ∧
    (nodeLines nodes)[i]? = nodes[i]?.map (fun node => nodeLine i node) := by
  refine ⟨by simp [nodeLines], ?_⟩
  simp only [nodeLines, List.getElem?_map, List.getElem?_enum]
  cases nodes[i]? <;> rfl

/-- C5: the tooltip attribute of every node declaration is the synopsis with
every double quote turned into a backslash-escaped double quote and every
other character untouched: the declaration embeds `escapeQuotes Synopsis` as
the tooltip value, and `escapeQuotes` is the character-wise map that is
multiplicative over concatenation, sends the one-quote string to
backslash-quote, and fixes every other one-character string. -/
theorem tooltip_escapes_only_quotes (i : Nat) (node : NodeData) (s t : String) (c : Char) :
    (∃ pre, nodeLine i node = pre ++ (escapeQuotes node.Synopsis ++ "\"];\n")) ∧
    escapeQuotes (s ++ t) = escapeQuotes s ++ escapeQuotes t ∧
    escapeQuotes (String.mk ['"']) = String.mk ['\\', '"'] ∧
    (c ≠ '"' → escapeQuotes (String.mk [c]) = String.mk [c]) := by
  refine ⟨⟨"  n" ++ toString i ++ " [label=\"" ++ node.Name ++ "\", URL=\""
    ++ node.URL ++ "\", tooltip=\"", ?_⟩, ?_, by decide, ?_⟩
  · apply String.ext
    simp [nodeLine, String.data_append]
  · apply String.ext
    simp [escapeQuotes, String.data_append]
  · intro hc
    apply String.ext
    simp [escapeQuotes, hc]

/-- Witness for C5 at concrete strings and a concrete non-quote character. -/
theorem tooltip_escapes_only_quotes_witness :
    ('z' ≠ '"') ∧ escapeQuotes (String.mk ['z']) = String.mk ['z'] :=
  ⟨by decide,
    (tooltip_escapes_only_quotes 0 ⟨"a", "b", "c", "d"⟩ "x" "y" 'z').2.2.2 (by decide)⟩

/-- C7: the document header carries a graph-level bgcolor attribute chunk
exactly when `BackgroundColor` is non-empty, and a graph-level fontname
attribute chunk exactly when `FontName` is non-empty; with both empty neither
chunk is emitted. -/
theorem optional_graph_attribute_lines (gm : GraphMetadata) :
    (("  bgcolor=\"" ++ gm.BackgroundColor ++ "\";\n") ∈ headerChunks gm
        ↔ gm.BackgroundColor ≠ "") ∧
    (("  fontname=\"" ++ gm.FontName ++ "\";\n") ∈ headerChunks gm
        ↔ gm.FontName ≠ "") := by
  constructor
  · constructor
    · intro hmem
      by_cases hbg : gm.BackgroundColor = ""
      · exfalso
        rw [headerChunks, if_neg (not_not_intro hbg)] at hmem
        by_cases hfn : gm.FontName ≠ ""
        · rw [if_pos hfn] at hmem
          simp [String.ext_iff, String.data_append] at hmem
        · rw [if_neg hfn] at hmem
          simp [String.ext_iff, String.data_append] at hmem
      · exact hbg
    · intro hbg
      rw [headerChunks, if_pos hbg]
      simp
  · constructor
    · intro hmem
      by_cases hfn : gm.FontName = ""
      · exfalso
        rw [headerChunks, if_neg (not_not_intro hfn)] at hmem
        by_cases hbg : gm.BackgroundColor ≠ ""
        · rw [if_pos hbg] at hmem
          simp [String.ext_iff, String.data_append] at hmem
        · rw [if_neg hbg] at hmem
          simp [String.ext_iff, String.data_append] at hmem
      · exact hfn
    · intro hfn
      rw [headerChunks, if_pos hfn]
      by_cases hbg : gm.BackgroundColor ≠ ""
      · rw [if_pos hbg]
        simp
      · rw [if_neg hbg]
        simp

/-- Witness for C7 at a concrete metadata value with both attributes set. -/
theorem optional_graph_attribute_lines_witness :
    ("  bgcolor=\"lightgray\";\n" ∈ headerChunks ⟨"G", "lightgray", "Arial"⟩
        ↔ ("lightgray" : String) ≠ "") ∧
    ("  fontname=\"Arial\";\n" ∈ headerChunks ⟨"G", "lightgray", "Arial"⟩
        ↔ ("Arial" : String) ≠ "") := by
  have h := optional_graph_attribute_lines ⟨"G", "lightgray", "Arial"⟩
  constructor
  · constructor
    · intro hm
      exact (h.1.mp (by exact (by decide : ("  bgcolor=\"lightgray\";\n" : String)
        = "  bgcolor=\"" ++ "lightgray" ++ "\";\n") ▸ hm))
    · intro hne
      exact (by decide : ("  bgcolor=\"" ++ "lightgray" ++ "\";\n" : String)
        = "  bgcolor=\"lightgray\";\n") ▸ h.1.mpr hne
  · constructor
    · intro hm
      exact (h.2.mp (by exact (by decide : ("  fontname=\"Arial\";\n" : String)
        = "  fontname=\"" ++ "Arial" ++ "\";\n") ▸ hm))
    · intro hne
      exact (by decide : ("  fontname=\"" ++ "Arial" ++ "\";\n" : String)
        = "  fontname=\"Arial\";\n") ▸ h.2.mpr hne
